import Mathlib

/-!
Verification development for the variant-generation orchestrator of this
repository (source of truth: `src/server/services/model.py`; the module
`src/backend.py` is a near-duplicate single-image version with the same
retry, decoding and collation logic).

The Python code is shallowly embedded:
* Python strings are `List Char` (`Str`), raw byte buffers are `List Nat`
  (`Bytes`); the stdlib string operations the source uses (`str.strip`,
  `str.replace`, `str.lower`, `str.upper`, `pathlib.PurePath.suffix/stem`,
  `mimetypes.guess_type`) are re-implemented structurally below.
* External collaborators (the PIL image decoder, the remote `google-genai`
  client, the clock and the filesystem) enter as explicit parameters:
  oracles describing what each external call returns on each invocation.
* Side effects are made visible as data: each variant worker's trace records
  the arguments of every `time.sleep` call, the number of attempts executed,
  and the final state of the (per-worker) filesystem; the response decoder
  additionally returns the list of secondary-fetch invocations it performed.
Floating-point backoff arithmetic (`1.0`, `*2`, `min _ 8.0`) only ever
produces the values 1, 2, 4, 8, which IEEE doubles represent exactly, so the
backoff is embedded as `Nat` arithmetic without loss.
-/

set_option maxRecDepth 200000

abbrev Str := List Char

abbrev Bytes := List Nat

instance {ε α : Type} [DecidableEq ε] [DecidableEq α] : DecidableEq (Except ε α) :=
  fun a b =>
    match a, b with
    | .error e, .error e' => decidable_of_iff (e = e') (by simp)
    | .error _, .ok _ => isFalse (by simp)
    | .ok _, .error _ => isFalse (by simp)
    | .ok v, .ok v' => decidable_of_iff (v = v') (by simp)

/-- Python `str.isspace` on the ASCII whitespace characters that
`str.strip()` removes. -/
def isPySpace (c : Char) : Bool :=
  c = ' ' || c = '\t' || c = '\n' || c = '\r' || c = '\x0b' || c = '\x0c'

/-- Python `str.strip()` with no argument: drop whitespace from both ends. -/
def pyStrip (s : Str) : Str :=
  ((s.dropWhile isPySpace).reverse.dropWhile isPySpace).reverse

/-- Fuel-driven worker for `pyReplace`; the fuel is the length of the
subject string, which bounds the number of steps when the pattern is
nonempty (every step consumes at least one character of the subject). -/
def replaceChars : Nat → Str → Str → Str → Str
  | 0, s, _, _ => s
  | _, [], _, _ => []
  | fuel + 1, c :: cs, pat, rep =>
    if pat.isPrefixOf (c :: cs) then
      rep ++ replaceChars fuel ((c :: cs).drop pat.length) pat rep
    else
      c :: replaceChars fuel cs pat rep

/-- Python `str.replace(pat, rep)` for a nonempty pattern: replace every
non-overlapping occurrence, scanning left to right.  (The source only ever
replaces the nonempty literals of the prompt template.) -/
def pyReplace (s pat rep : Str) : Str :=
  replaceChars s.length s pat rep

/-- Substring test used to state the "contains ..." properties of the spec:
`occursIn pat s` holds when `pat` occurs contiguously inside `s`. -/
def occursIn (pat : Str) : Str → Bool
  | [] => pat.isEmpty
  | c :: cs => pat.isPrefixOf (c :: cs) || occursIn pat cs

/-- ASCII lower-casing of one character (what Python `str.lower` does on the
ASCII file suffixes and format names this code handles). -/
def charLower (c : Char) : Char :=
  if 65 ≤ c.toNat ∧ c.toNat ≤ 90 then Char.ofNat (c.toNat + 32) else c

/-- ASCII upper-casing of one character. -/
def charUpper (c : Char) : Char :=
  if 97 ≤ c.toNat ∧ c.toNat ≤ 122 then Char.ofNat (c.toNat - 32) else c

/-- Python `str.lower()` (ASCII fragment). -/
def pyLower (s : Str) : Str := s.map charLower

/-- Python `str.upper()` (ASCII fragment). -/
def pyUpper (s : Str) : Str := s.map charUpper

/-- Python truthiness-based defaulting `x or d` for an optional string:
`None` and the empty string both fall through to the default. -/
def pyOrStr (x : Option Str) (d : Str) : Str :=
  match x with
  | some s => if s.isEmpty then d else s
  | none => d

/-- Final path component: the part of the string after the last `/`
(`PurePath.name`). -/
def lastComponent (s : Str) : Str :=
  (s.reverse.takeWhile (fun c => c ≠ '/')).reverse

/-- `pathlib.PurePath.suffix`: the extension of the final component,
nonempty exactly when the last dot of the name sits strictly between the
first and the last character (`0 < i < len(name) - 1` in pathlib's
implementation). -/
def pathSuffix (s : Str) : Str :=
  let name := lastComponent s
  let after := name.reverse.takeWhile (fun c => c ≠ '.')
  if after.length ≠ 0 ∧ after.length + 1 < name.length then
    '.' :: after.reverse
  else []

/-- `pathlib.PurePath.stem`: the final component with `pathSuffix` cut off. -/
def pathStem (s : Str) : Str :=
  let name := lastComponent s
  name.take (name.length - (pathSuffix s).length)

/-- Extension as `os.path.splitext` computes it for `mimetypes.guess_type`:
like `pathSuffix`, but a trailing dot still counts, and a name whose only
characters before the last dot are dots (a hidden file) has no extension. -/
def splitextExt (s : Str) : Str :=
  let name := lastComponent s
  let after := name.reverse.takeWhile (fun c => c ≠ '.')
  if after.length + 1 ≤ name.length ∧
      (name.take (name.length - (after.length + 1))).any (fun c => c ≠ '.') then
    '.' :: after.reverse
  else []

/-- Association-list lookup with `List Char` keys (Python `dict.get`). -/
def tableGet (t : List (Str × Str)) (k : Str) : Option Str :=
  match t with
  | [] => none
  | (k', v) :: rest => if k = k' then some v else tableGet rest k

/-- Modelled from the Python standard library: the image-type rows of the
`mimetypes` default extension table that this repository's inputs can hit. -/
def mimetypes_table : List (Str × Str) :=
  [ ((".png").data, ("image/png").data)
  , ((".jpg").data, ("image/jpeg").data)
  , ((".jpeg").data, ("image/jpeg").data)
  , ((".jpe").data, ("image/jpeg").data)
  , ((".webp").data, ("image/webp").data)
  , ((".bmp").data, ("image/bmp").data)
  , ((".tiff").data, ("image/tiff").data)
  , ((".tif").data, ("image/tiff").data)
  , ((".gif").data, ("image/gif").data) ]

/-- Modelled from the Python standard library: `mimetypes.guess_type`,
which looks the lower-cased `splitext` extension up in its table and
returns `None` when the extension is absent or unknown. -/
def guess_type (filename : Str) : Option Str :=
  tableGet mimetypes_table (pyLower (splitextExt filename))

/-- `TEMPLATE` of `src/server/services/model.py` (the two-image prompt). -/
def TEMPLATE : Str :=
  ("TASK\nYou are an image editor. You will be given TWO images after this text:\n1) BASE image (no instruction boxes) — use only for context and to infer content hidden by boxes.\n2) BOXED image (with black/white instruction boxes) — THIS IS THE EDITING TARGET.\n\nFirst, if provided, apply the GLOBAL DIRECTIVE to the whole scene (both images’ content should be consistent with the directive).\nThen read every instruction box in the BOXED image, perform those edits on the BOXED image, and finally remove all boxes from the BOXED image.\n\nGLOBAL DIRECTIVE (optional, scene-wide)\n• VALUE: \"{GLOBAL_DIRECTIVE}\"\n\nWHAT COUNTS AS A BOX (in the BOXED image)\n• A dark/black semi-transparent rectangle with white text.\n• Use the box center as the anchor; affect the box area (expand up to ~3× if needed).\n\nALLOWED ACTIONS (case-insensitive)\n• ADD / REMOVE / REPLACE A WITH B / SWAP TO <style>.\n\nEDITING RULES\n• Edit ONLY the BOXED image; use the BASE image to reconstruct anything occluded by boxes or text.\n• Preserve composition; change only what is requested by boxes or the global directive.\n• Match lighting, shadows, reflections, textures, perspective, DOF.\n• Respect occlusions; cast plausible shadows.\n• If local box instructions conflict with the global directive, local instructions take precedence in their region.\n• Apply multiple boxes in order: REMOVE → REPLACE → ADD → SWAP.\n• After all edits, remove every instruction box completely (no outlines, no text).\n\nVARIATION HINT\n• Produce a distinct but valid variant #{VAR} by varying only non-essential attributes (crop/viewpoint, subtle grade/DOF, micro-lighting). Do not add new elements beyond the requested edits.\n\nOUTPUT\n• Return the edited IMAGE only (the edited BOXED image) — no overlays, no captions, no borders, no boxes.\n").data

/-- `_build_prompt(global_str, variant_idx)`: trim the directive, substitute
it (or the literal `NONE` when the trimmed directive is empty) for
`{GLOBAL_DIRECTIVE}`, and substitute the decimal variant index for `{VAR}`.
(`global_str or ""` only matters for `None`, which the `Str` embedding has
no inhabitant for; the empty string takes the same branch.) -/
def build_prompt (global_str : Str) (variant_idx : Nat) : Str :=
  let g := pyStrip global_str
  pyReplace
    (pyReplace TEMPLATE (("{GLOBAL_DIRECTIVE}").data)
      (if g.isEmpty then ("NONE").data else g))
    (("{VAR}").data) ((Nat.repr variant_idx).data)

/-- `_FORMAT_TO_MIME` of `src/server/services/model.py`. -/
def FORMAT_TO_MIME : List (Str × Str) :=
  [ (("PNG").data, ("image/png").data)
  , (("JPEG").data, ("image/jpeg").data)
  , (("JPG").data, ("image/jpeg").data)
  , (("WEBP").data, ("image/webp").data)
  , (("BMP").data, ("image/bmp").data)
  , (("TIFF").data, ("image/tiff").data)
  , (("TIF").data, ("image/tiff").data) ]

/-- `_FORMAT_TO_SUFFIX` of `src/server/services/model.py`. -/
def FORMAT_TO_SUFFIX : List (Str × Str) :=
  [ (("PNG").data, (".png").data)
  , (("JPEG").data, (".jpg").data)
  , (("JPG").data, (".jpg").data)
  , (("WEBP").data, (".webp").data)
  , (("BMP").data, (".bmp").data)
  , (("TIFF").data, (".tiff").data)
  , (("TIF").data, (".tiff").data) ]

/-- What `PIL.Image.open(BytesIO(photo_bytes))` can do with a byte buffer:
either it decodes and reports the intrinsic format (`im.format`, possibly
`None`), or it raises because the bytes are not a valid image.  PIL is an
external collaborator, so this result is supplied by an oracle. -/
inductive PILProbe where
  | ok (format : Option Str)
  | failure
deriving DecidableEq

/-- `_infer_mime_and_suffix_from_bytes(photo_bytes, filename_hint)`:
filename-hint-derived MIME/suffix first, else the table entry for the
decoded image's intrinsic format, else `image/png` / `.png`; raises
(`Except.error`) when PIL cannot decode the bytes.  `pilOpen` is the PIL
oracle applied to `photo_bytes`. -/
def infer_mime_and_suffix_from_bytes (pilOpen : Bytes → PILProbe)
    (photo_bytes : Bytes) (filename_hint : Option Str) :
    Except Unit (Str × Str) :=
  let mime_hint : Option Str := filename_hint.bind guess_type
  let suffix_hint : Option Str := filename_hint.bind fun h =>
    let s := pyLower (pathSuffix h)
    if s.isEmpty then none else some s
  match pilOpen photo_bytes with
  | .failure => .error ()
  | .ok format =>
    let fmt := pyUpper (format.getD [])
    let mime_pil := tableGet FORMAT_TO_MIME fmt
    let suffix_pil := tableGet FORMAT_TO_SUFFIX fmt
    .ok (mime_hint.getD (mime_pil.getD (("image/png").data)),
         suffix_hint.getD (suffix_pil.getD ((".png").data)))

/-- `types.Blob`, the `inline_data` payload: raw bytes plus MIME type, both
optional fields of the remote schema. -/
structure BlobModel where
  data : Option Bytes
  mime_type : Option Str
deriving DecidableEq

/-- `types.FileData`, the `file_data` payload: a remote file reference. -/
structure FileDataModel where
  file_uri : Option Str
  mime_type : Option Str
deriving DecidableEq

/-- One `part` of a response candidate's content. -/
structure PartModel where
  inline_data : Option BlobModel
  file_data : Option FileDataModel
deriving DecidableEq

/-- `candidate.content`; `parts` may be absent/`None`. -/
structure ContentModel where
  parts : Option (List PartModel)
deriving DecidableEq

/-- One response candidate; `content` may be absent/`None`. -/
structure CandidateModel where
  content : Option ContentModel
deriving DecidableEq

/-- The opaque response of `models.generate_content`; `candidates` may be
absent/`None`. -/
structure ResponseModel where
  candidates : Option (List CandidateModel)
deriving DecidableEq

/-- `getattr(getattr(cand, "content", None), "parts", []) or []`. -/
def candParts (cand : CandidateModel) : List PartModel :=
  match cand.content with
  | none => []
  | some c => c.parts.getD []

/-- The parts the two decoding loops of `_extract_image_from_response`
traverse, in traversal order: candidates in order, each candidate's parts in
order (`getattr(resp, "candidates", []) or []`). -/
def allParts (resp : ResponseModel) : List PartModel :=
  ((resp.candidates.getD []).map candParts).flatten

/-- First part whose `inline_data` attribute is present (the object is a
pydantic model, hence truthy whenever present): the first decoding loop. -/
def firstInline : List PartModel → Option BlobModel
  | [] => none
  | p :: ps =>
    match p.inline_data with
    | some b => some b
    | none => firstInline ps

/-- The `fd and getattr(fd, "file_uri", None)` test of the second decoding
loop: a part contributes a remote reference when `file_data` is present and
its `file_uri` is truthy (present and nonempty). -/
def fileRefOf (p : PartModel) : Option (Str × Option Str) :=
  match p.file_data with
  | some fd =>
    match fd.file_uri with
    | some uri => if uri.isEmpty then none else some (uri, fd.mime_type)
    | none => none
  | none => none

/-- First part with a truthy remote-file reference: the second decoding
loop. -/
def firstFileRef : List PartModel → Option (Str × Option Str)
  | [] => none
  | p :: ps =>
    match fileRefOf p with
    | some r => some r
    | none => firstFileRef ps

/-- The two methods of the shared `genai.Client` that the core uses, as an
oracle: which keyword names `files.download` accepts in this library
version, and the bytes a download of a given URI returns. -/
structure FilesClient where
  accepts_name : Bool
  accepts_file : Bool
  fetch : Str → Bytes

/-- Whether `client.files.download(**{kw: file_uri})` is a recognized call
(otherwise Python raises `TypeError` before any network traffic). -/
def kwAccepted (client : FilesClient) (kw : Str) : Bool :=
  (kw = ("name").data && client.accepts_name) ||
    (kw = ("file").data && client.accepts_file)

/-- The `for kw in ("name", "file")` loop of `_download_file_bytes`: try
each keyword, swallowing `TypeError`; also report the keywords tried. -/
def downloadLoop (client : FilesClient) (file_uri : Str) :
    List Str → Except Unit Bytes × List Str
  | [] => (.error (), [])
  | kw :: rest =>
    if kwAccepted client kw then (.ok (client.fetch file_uri), [kw])
    else
      let r := downloadLoop client file_uri rest
      (r.1, kw :: r.2)

/-- `_download_file_bytes(client, file_uri)`: returns the downloaded bytes,
or `TypeError("files.download() signature not recognized ...")` when
neither calling convention is accepted; paired with the keyword conventions
it tried. -/
def download_file_bytes (client : FilesClient) (file_uri : Str) :
    Except Unit Bytes × List Str :=
  downloadLoop client file_uri [("name").data, ("file").data]

/-- `_extract_image_from_response(resp, client)`: scan all parts for inline
data first (first match wins, returning its bytes and `mime_type or
"image/png"`); only if none exists scan again for a remote-file reference
and perform the secondary fetch; `(none, none)` when neither is present.
The second component of the result is the list of `file_uri` arguments of
the secondary-fetch invocations performed; `Except.error` is the
propagating `TypeError` of `_download_file_bytes`. -/
def extract_image_from_response (resp : ResponseModel) (client : FilesClient) :
    Except Unit (Option Bytes × Option Str) × List Str :=
  match firstInline (allParts resp) with
  | some blob => (.ok (blob.data, some (pyOrStr blob.mime_type (("image/png").data))), [])
  | none =>
    match firstFileRef (allParts resp) with
    | some (uri, mt) =>
      match (download_file_bytes client uri).1 with
      | .ok data => (.ok (some data, some (pyOrStr mt (("image/png").data))), [uri])
      | .error e => (.error e, [uri])
    | none => (.ok (none, none), [])

/-- The error raised by one attempt of `_one_variant`'s `try` body, caught
by its `except Exception` handler. -/
inductive GenErr where
  | remote (msg : Str)
  | downloadSignature
  | noImage
  | save (msg : Str)
deriving DecidableEq

/-- What `Image.open(BytesIO(img_bytes)).save(out_path)` does on one
attempt.  PIL writes straight to the destination path, so a failure either
happens before the file is created (e.g. the in-memory image header does
not parse) or in the middle of writing, leaving a truncated file; which of
the two happens is external behavior, supplied by the oracle. -/
inductive SaveOutcome where
  | ok
  | failNoWrite (msg : Str)
  | failMidWrite (msg : Str)
deriving DecidableEq

/-- State of the durable store at one path: a completely written image
file, or the truncated residue of an interrupted write. -/
inductive DiskFile where
  | complete
  | truncated
deriving DecidableEq

/-- The filesystem as a map from paths to file states. -/
def FS : Type := Str → Option DiskFile

/-- Writing (or overwriting) the file at `p`. -/
def setFile (fs : FS) (p : Str) (d : DiskFile) : FS :=
  fun q => if q = p then some d else fs q

/-- Oracles for everything external one variant worker touches, indexed by
the 1-based attempt number: the outcome of `models.generate_content` (an
exception message or a response), the shared client's `files` surface for
the secondary fetch, and the behavior of the PIL save. -/
structure VariantEnv where
  call : Nat → Str → Except Str ResponseModel
  files : FilesClient
  save : Nat → SaveOutcome

/-- One iteration of `_one_variant`'s `try` body at a given attempt number:
remote call, response decoding (a propagating `TypeError` from the
secondary fetch included), the `if not img_bytes` re-raise, and the PIL
save; returns the result the `try` produces together with the filesystem
after the attempt. -/
def attemptStep (env : VariantEnv) (prompt : Str) (attempt : Nat)
    (out_path : Str) (fs : FS) : Except GenErr Bytes × FS :=
  match env.call attempt prompt with
  | .error msg => (.error (.remote msg), fs)
  | .ok resp =>
    match (extract_image_from_response resp env.files).1 with
    | .error _ => (.error .downloadSignature, fs)
    | .ok (img_bytes, _mt) =>
      if (img_bytes.getD []).isEmpty then (.error .noImage, fs)
      else
        match env.save attempt with
        | .ok => (.ok (img_bytes.getD []), setFile fs out_path .complete)
        | .failNoWrite msg => (.error (.save msg), fs)
        | .failMidWrite msg => (.error (.save msg), setFile fs out_path .truncated)

/-- The value component of an attempt is independent of the path and the
filesystem; `attemptResult` is that component. -/
def attemptResult (env : VariantEnv) (prompt : Str) (attempt : Nat) :
    Except GenErr Bytes :=
  (attemptStep env prompt attempt [] (fun _ => none)).1

/-- Terminal state of one variant worker: the returned output path, or the
`RuntimeError(f"Variant {i} failed after retries: {last_err}")` carrying
the variant index and the last underlying failure. -/
inductive VariantOutcome where
  | done (out_path : Str)
  | failed (variant : Nat) (last_err : Option GenErr)
deriving DecidableEq

/-- Observable history of one variant worker: its terminal state, the
durations passed to `time.sleep` in order, the number of attempts executed,
and its final view of the filesystem. -/
structure VariantTrace where
  outcome : VariantOutcome
  sleeps : List Nat
  attempts : Nat
  fs : FS

/-- The `for attempt in range(1, 5)` loop of `_one_variant`: run the
attempts in order; on success return the output path; after every failed
attempt (the last one included) sleep the current backoff and double it,
capping at 8; when the attempt list is exhausted, fail naming the variant
index and the last error. -/
def retryLoop (env : VariantEnv) (prompt : Str) (i : Nat) (out_path : Str) :
    List Nat → Nat → Option GenErr → List Nat → Nat → FS → VariantTrace
  | [], _, last_err, sleeps, attempts, fs =>
    ⟨.failed i last_err, sleeps, attempts, fs⟩
  | attempt :: rest, backoff, last_err, sleeps, attempts, fs =>
    match attemptStep env prompt attempt out_path fs with
    | (.ok _, fs') => ⟨.done out_path, sleeps, attempts + 1, fs'⟩
    | (.error e, fs') =>
      retryLoop env prompt i out_path rest (min (backoff * 2) 8) (some e)
        (sleeps ++ [backoff]) (attempts + 1) fs'

/-- `_one_variant(i)`: build the prompt for variant `i`, then run the four
attempts with the backoff starting at 1. -/
def one_variant (env : VariantEnv) (global_directive : Str) (i : Nat)
    (out_path : Str) (fs : FS) : VariantTrace :=
  let prompt := build_prompt global_directive i
  retryLoop env prompt i out_path [1, 2, 3, 4] 1 none [] 0 fs

/-- Python string `<` on code points, specialized to `List Char`
(`sorted(saved)` compares the output `Path`s, which all live in the same
directory, so the comparison is decided by this lexicographic order on the
path strings). -/
def lexLt : Str → Str → Bool
  | [], [] => false
  | [], _ :: _ => true
  | _ :: _, [] => false
  | a :: as, b :: bs =>
    if a.toNat < b.toNat then true
    else if b.toNat < a.toNat then false
    else lexLt as bs

/-- The non-strict order `a ≤ b` induced by `lexLt` (what Python's `sorted`
establishes between adjacent elements of its output). -/
def pathLe (a b : Str) : Prop := lexLt b a = false

instance : DecidableRel pathLe := fun a b => instDecidableEqBool (lexLt b a) false

/-- `sorted(saved)`: ascending sort of the collected output paths. -/
def pySorted (l : List Str) : List Str := List.insertionSort pathLe l

/-- The aggregate failures `generate_four_edits_from_two_bytes` can raise:
a PIL decode error from probing one of the two input images, or
`RuntimeError("All variants failed.")`. -/
inductive OrchestraErr where
  | imageDecode
  | allFailed
deriving DecidableEq

/-- Oracles for one whole orchestrator invocation: the PIL decoder, the
random `uuid.uuid4().hex[:8]` fragment, the per-variant external behavior
(each worker has its own remote-call history), and the order in which
`as_completed` yields the four futures. -/
structure OrchestraEnv where
  pilOpen : Bytes → PILProbe
  uuid_hex : Str
  variantEnv : Nat → VariantEnv
  completion : List Nat

/-- `f"{run_stem}_v{i}{boxed_suffix}"` joined under `outputs_dir`. -/
def outPathName (outputs_dir run_stem : Str) (boxed_suffix : Str) (i : Nat) : Str :=
  outputs_dir ++ '/' :: run_stem ++ ("_v").data ++ (Nat.repr i).data ++ boxed_suffix

/-- `f"{boxed_stem}_{uuid.uuid4().hex[:8]}"` where `boxed_stem` is the stem
of the boxed filename hint, or `"boxed"` without a hint. -/
def runStem (boxed_filename_hint : Option Str) (uuid_hex : Str) : Str :=
  (match boxed_filename_hint with
   | some h => pathStem h
   | none => ("boxed").data) ++ '_' :: uuid_hex

/-- Result of one orchestrator invocation: the returned sorted path list or
the aggregate error, plus the traces of the four variant workers (empty
when input probing failed before fan-out).  Each worker starts from the
caller's filesystem and touches only its own output path; the traces keep
the per-worker views. -/
structure GenerateResult where
  result : Except OrchestraErr (List Str)
  traces : List VariantTrace

/-- `generate_four_edits_from_two_bytes`: probe both input images (PIL
decode errors propagate immediately, before any variant work), derive the
run stem and the four output paths, run the four variant workers, collect
the successful output paths in completion order tolerating per-variant
failures, raise `All variants failed.` when none succeeded, and otherwise
return the collected paths sorted. -/
def generate_four_edits_from_two_bytes (env : OrchestraEnv)
    (boxed_bytes base_bytes : Bytes) (global_directive : Str)
    (boxed_filename_hint base_filename_hint : Option Str)
    (outputs_dir : Str) (fs : FS) : GenerateResult :=
  match infer_mime_and_suffix_from_bytes env.pilOpen boxed_bytes boxed_filename_hint with
  | .error _ => ⟨.error .imageDecode, []⟩
  | .ok (_boxed_mime, boxed_suffix) =>
    match infer_mime_and_suffix_from_bytes env.pilOpen base_bytes base_filename_hint with
    | .error _ => ⟨.error .imageDecode, []⟩
    | .ok _ =>
      let run_stem := runStem boxed_filename_hint env.uuid_hex
      let outPath := outPathName outputs_dir run_stem boxed_suffix
      let trace := fun i =>
        one_variant (env.variantEnv i) global_directive i (outPath i) fs
      let succPath : Nat → Option Str := fun i =>
        match (trace i).outcome with
        | .done p => some p
        | .failed _ _ => none
      let saved := env.completion.filterMap succPath
      ⟨if saved.isEmpty then .error .allFailed else .ok (pySorted saved),
       [trace 1, trace 2, trace 3, trace 4]⟩

theorem lexLt_irrefl (a : Str) : lexLt a a = false := by
  induction a with
  | nil => rfl
  | cons c cs ih => simp [lexLt, ih]

theorem lexLt_asymm : ∀ {a b : Str}, lexLt a b = true → lexLt b a = false
  | [], [], h => by simp [lexLt] at h
  | [], _ :: _, _ => rfl
  | _ :: _, [], h => by simp [lexLt] at h
  | x :: xs, y :: ys, h => by
    simp only [lexLt] at h ⊢
    by_cases h1 : x.toNat < y.toNat
    · simp [if_neg (by omega : ¬ y.toNat < x.toNat), if_pos h1]
    · by_cases h2 : y.toNat < x.toNat
      · simp [h1, h2] at h
      · simp only [if_neg h1, if_neg h2] at h ⊢
        exact lexLt_asymm h

theorem lexLt_conn : ∀ {a b : Str}, lexLt a b = false → lexLt b a = false → a = b
  | [], [], _, _ => rfl
  | [], _ :: _, h, _ => by simp [lexLt] at h
  | _ :: _, [], _, h => by simp [lexLt] at h
  | x :: xs, y :: ys, h, h' => by
    simp only [lexLt] at h h'
    have h1 : ¬ x.toNat < y.toNat := by intro hh; simp [hh] at h
    have h2 : ¬ y.toNat < x.toNat := by intro hh; simp [hh] at h'
    have h3 : x = y := by
      have hn : x.toNat = y.toNat := by omega
      rw [← Char.ofNat_toNat x, ← Char.ofNat_toNat y, hn]
    subst h3
    simp only [if_neg h1, if_neg h2] at h h'
    rw [lexLt_conn h h']

theorem lexLt_le_trans : ∀ (a b c : Str),
    lexLt b a = false → lexLt c b = false → lexLt c a = false
  | [], _, c, _, _ => by cases c <;> rfl
  | _ :: _, [], _, h, _ => by simp [lexLt] at h
  | _ :: _, _ :: _, [], _, h' => by simp [lexLt] at h'
  | x :: xs, y :: ys, z :: zs, h, h' => by
    simp only [lexLt] at h h' ⊢
    have h1 : ¬ y.toNat < x.toNat := by intro hh; simp [hh] at h
    have h2 : ¬ z.toNat < y.toNat := by intro hh; simp [hh] at h'
    have h3 : ¬ z.toNat < x.toNat := by omega
    by_cases h4 : x.toNat < z.toNat
    · simp [if_neg h3, h4]
    · have h5 : ¬ x.toNat < y.toNat := by omega
      have h6 : ¬ y.toNat < z.toNat := by omega
      simp only [if_neg h1, if_neg h5] at h
      simp only [if_neg h2, if_neg h6] at h'
      simp only [if_neg h3, if_neg h4]
      exact lexLt_le_trans xs ys zs h h'

instance : IsTrans Str pathLe :=
  ⟨fun a b c h h' => lexLt_le_trans a b c h h'⟩

instance : IsAntisymm Str pathLe :=
  ⟨fun a b h h' => lexLt_conn h' h⟩

instance : IsTotal Str pathLe := by
  refine ⟨fun a b => ?_⟩
  rcases hab : lexLt b a with _ | _
  · exact Or.inl hab
  · exact Or.inr (lexLt_asymm hab)

instance : IsRefl Str pathLe := ⟨fun a => lexLt_irrefl a⟩

/-- Strict lexicographic comparison only looks past a common prefix. -/
theorem lexLt_append_lt : ∀ (p : Str) {x y : Char} (s t : Str),
    x.toNat < y.toNat → lexLt (p ++ x :: s) (p ++ y :: t) = true
  | [], x, y, s, t, h => by simp [lexLt, h]
  | c :: p', x, y, s, t, h => by
    simp only [List.cons_append, lexLt, Nat.lt_irrefl, if_false]
    exact lexLt_append_lt p' s t h

/-- The error held by a failed attempt result, if any. -/
def errOf : Except GenErr Bytes → Option GenErr
  | .error e => some e
  | .ok _ => none

/-- The sequence of `time.sleep` durations produced by `k` consecutive
failures starting from backoff `b` (doubling, capped at 8). -/
def backoffSeq : Nat → Nat → List Nat
  | _, 0 => []
  | b, k + 1 => b :: backoffSeq (min (b * 2) 8) k

theorem attemptStep_fst (env : VariantEnv) (prompt : Str) (a : Nat)
    (p : Str) (fs : FS) :
    (attemptStep env prompt a p fs).1 = attemptResult env prompt a := by
  unfold attemptResult attemptStep
  rcases hc : env.call a prompt with msg | resp <;> simp only [hc]
  rcases hE : (extract_image_from_response resp env.files).1 with e | ⟨img, mt⟩ <;>
    simp only [hE]
  by_cases h : (img.getD []).isEmpty = true
  · simp [h]
  · rcases hs : env.save a with _ | m | m <;> simp [h, hs]

theorem retryLoop_cons_ok (env : VariantEnv) (prompt : Str) (i : Nat)
    (p : Str) (a : Nat) (rest : List Nat) (b : Nat) (l : Option GenErr)
    (sl : List Nat) (n : Nat) (fs : FS)
    (h : (attemptResult env prompt a).isOk = true) :
    retryLoop env prompt i p (a :: rest) b l sl n fs =
      ⟨.done p, sl, n + 1, setFile fs p .complete⟩ := by
  have hfst := attemptStep_fst env prompt a p fs
  rcases hstep : attemptStep env prompt a p fs with ⟨res, fs'⟩
  rw [hstep] at hfst
  rcases res with e | v
  · rw [← hfst] at h; simp [Except.isOk, Except.toBool] at h
  · have hfs' : fs' = setFile fs p .complete := by
      unfold attemptStep at hstep
      rcases hc : env.call a prompt with msg | resp <;> simp only [hc] at hstep
      · simp at hstep
      · rcases hE : (extract_image_from_response resp env.files).1 with e' | ⟨img, mt⟩ <;>
          simp only [hE] at hstep
        · simp at hstep
        · by_cases hi : (img.getD []).isEmpty = true
          · simp [hi] at hstep
          · rcases hs : env.save a with _ | m | m <;> simp [hi, hs] at hstep <;>
              simp [hstep.2]
    subst hfs'
    simp [retryLoop, hstep]

theorem retryLoop_cons_error (env : VariantEnv) (prompt : Str) (i : Nat)
    (p : Str) (a : Nat) (rest : List Nat) (b : Nat) (l : Option GenErr)
    (sl : List Nat) (n : Nat) (fs : FS) (e : GenErr)
    (h : attemptResult env prompt a = .error e) :
    retryLoop env prompt i p (a :: rest) b l sl n fs =
      retryLoop env prompt i p rest (min (b * 2) 8) (some e) (sl ++ [b]) (n + 1)
        (attemptStep env prompt a p fs).2 := by
  have hfst := attemptStep_fst env prompt a p fs
  rcases hstep : attemptStep env prompt a p fs with ⟨res, fs'⟩
  rw [hstep] at hfst
  rcases res with e' | v
  · rw [h] at hfst
    cases hfst
    simp [retryLoop, hstep]
  · rw [h] at hfst; cases hfst

/-- Exhausting the whole attempt list when every attempt fails: the worker
ends `FAILED` carrying the variant index and the error of the last attempt,
executes exactly one attempt per list element, and sleeps the full backoff
sequence (the final failed attempt included). -/
theorem retryLoop_all_fail (env : VariantEnv) (prompt : Str) (i : Nat) (p : Str) :
    ∀ (as : List Nat) (b : Nat) (l : Option GenErr) (sl : List Nat) (n : Nat) (fs : FS),
    (∀ a ∈ as, (attemptResult env prompt a).isOk = false) →
    (retryLoop env prompt i p as b l sl n fs).outcome =
        .failed i (match as.getLast? with
          | none => l
          | some a => errOf (attemptResult env prompt a)) ∧
      (retryLoop env prompt i p as b l sl n fs).sleeps = sl ++ backoffSeq b as.length ∧
      (retryLoop env prompt i p as b l sl n fs).attempts = n + as.length
  | [], b, l, sl, n, fs, _ => by simp [retryLoop, backoffSeq]
  | a :: rest, b, l, sl, n, fs, hf => by
    have ha := hf a (List.mem_cons_self a rest)
    rcases he : attemptResult env prompt a with e | v
    · rw [retryLoop_cons_error env prompt i p a rest b l sl n fs e he]
      have ih := retryLoop_all_fail env prompt i p rest (min (b * 2) 8) (some e)
        (sl ++ [b]) (n + 1) (attemptStep env prompt a p fs).2
        (fun a' ha' => hf a' (List.mem_cons_of_mem a ha'))
      refine ⟨?_, ?_, ?_⟩
      · rw [ih.1]
        rcases rest with _ | ⟨r, rs⟩
        · simp [he, errOf]
        · simp only [List.getLast?_cons_cons]
          rcases hgl : (r :: rs).getLast? with _ | x
          · simp [List.getLast?_eq_none_iff] at hgl
          · rfl
      · rw [ih.2.1]
        simp [backoffSeq, List.append_assoc]
      · rw [ih.2.2]
        simp; omega
    · rw [he] at ha; simp [Except.isOk, Except.toBool] at ha

/-- The worker's terminal state is `DONE` with the worker's own output path
or `FAILED` with the worker's own variant index. -/
theorem retryLoop_outcome_shape (env : VariantEnv) (prompt : Str) (i : Nat) (p : Str) :
    ∀ (as : List Nat) (b : Nat) (l : Option GenErr) (sl : List Nat) (n : Nat) (fs : FS),
    (retryLoop env prompt i p as b l sl n fs).outcome = .done p ∨
      ∃ l', (retryLoop env prompt i p as b l sl n fs).outcome = .failed i l'
  | [], b, l, sl, n, fs => by simp [retryLoop]
  | a :: rest, b, l, sl, n, fs => by
    rcases hstep : attemptStep env prompt a p fs with ⟨res, fs'⟩
    rcases res with e | v
    · have := retryLoop_outcome_shape env prompt i p rest (min (b * 2) 8) (some e)
        (sl ++ [b]) (n + 1) fs'
      simpa [retryLoop, hstep] using this
    · simp [retryLoop, hstep]

/-- The sleep trace of a worker is always an initial segment of the backoff
sequence that starts at the incoming backoff value. -/
theorem retryLoop_sleeps_shape (env : VariantEnv) (prompt : Str) (i : Nat) (p : Str) :
    ∀ (as : List Nat) (b : Nat) (l : Option GenErr) (sl : List Nat) (n : Nat) (fs : FS),
    ∃ k ≤ as.length,
      (retryLoop env prompt i p as b l sl n fs).sleeps = sl ++ backoffSeq b k
  | [], b, l, sl, n, fs => ⟨0, by simp, by simp [retryLoop, backoffSeq]⟩
  | a :: rest, b, l, sl, n, fs => by
    rcases hstep : attemptStep env prompt a p fs with ⟨res, fs'⟩
    rcases res with e | v
    · obtain ⟨k, hk, hsl⟩ := retryLoop_sleeps_shape env prompt i p rest
        (min (b * 2) 8) (some e) (sl ++ [b]) (n + 1) fs'
      refine ⟨k + 1, by simp; omega, ?_⟩
      simp only [retryLoop, hstep, hsl, backoffSeq, List.append_assoc,
        List.singleton_append]
    · exact ⟨0, by simp, by simp [retryLoop, hstep, backoffSeq]⟩

theorem backoffSeq_one_take : ∀ k ≤ 4, backoffSeq 1 k = List.take k [1, 2, 4, 8] := by
  intro k hk
  interval_cases k <;> rfl

theorem attemptStep_snd_ok (env : VariantEnv) (prompt : Str) (a : Nat)
    (p : Str) (fs : FS) (v : Bytes)
    (h : (attemptStep env prompt a p fs).1 = .ok v) :
    (attemptStep env prompt a p fs).2 = setFile fs p .complete := by
  unfold attemptStep at h ⊢
  rcases hc : env.call a prompt with msg | resp <;> simp only [hc] at h ⊢
  · simp at h
  · rcases hE : (extract_image_from_response resp env.files).1 with e' | ⟨img, mt⟩ <;>
      simp only [hE] at h ⊢
    · simp at h
    · by_cases hi : (img.getD []).isEmpty = true
      · simp [hi] at h
      · rcases hs : env.save a with _ | m | m <;> simp [hi, hs] at h ⊢

theorem attemptStep_snd_error (env : VariantEnv) (prompt : Str) (a : Nat)
    (p : Str) (fs : FS) (e : GenErr)
    (h : (attemptStep env prompt a p fs).1 = .error e) :
    (attemptStep env prompt a p fs).2 p = fs p ∨
      (attemptStep env prompt a p fs).2 p = some .truncated := by
  unfold attemptStep
  rcases hc : env.call a prompt with msg | resp <;> simp only [hc]
  · exact Or.inl trivial
  · rcases hE : (extract_image_from_response resp env.files).1 with e' | ⟨img, mt⟩ <;>
      simp only [hE]
    · exact Or.inl trivial
    · by_cases hi : (img.getD []).isEmpty = true
      · simp [hi]
      · unfold attemptStep at h
        simp only [hc, hE] at h
        rcases hs : env.save a with _ | m | m <;> simp [hi, hs] at h ⊢
        · simp [setFile]

/-- Filesystem safety of the retry loop: starting from a path with no file
(or only truncated residue), a worker that ends `DONE` leaves a complete
file there, and a worker that never reaches `DONE` leaves nothing or
truncated residue — never a complete file. -/
theorem retryLoop_fs (env : VariantEnv) (prompt : Str) (i : Nat) (p : Str) :
    ∀ (as : List Nat) (b : Nat) (l : Option GenErr) (sl : List Nat) (n : Nat) (fs : FS),
    (fs p = none ∨ fs p = some .truncated) →
    ((retryLoop env prompt i p as b l sl n fs).outcome = .done p →
        (retryLoop env prompt i p as b l sl n fs).fs p = some .complete) ∧
      ((retryLoop env prompt i p as b l sl n fs).outcome ≠ .done p →
        ((retryLoop env prompt i p as b l sl n fs).fs p = none ∨
          (retryLoop env prompt i p as b l sl n fs).fs p = some .truncated))
  | [], b, l, sl, n, fs, hinv => by
    constructor
    · intro h; simp [retryLoop] at h
    · intro _; simpa [retryLoop] using hinv
  | a :: rest, b, l, sl, n, fs, hinv => by
    rcases hstep : attemptStep env prompt a p fs with ⟨res, fs'⟩
    rcases res with e | v
    · have hsnd : fs' p = fs p ∨ fs' p = some .truncated := by
        have := attemptStep_snd_error env prompt a p fs e (by rw [hstep])
        rwa [hstep] at this
      have hinv' : fs' p = none ∨ fs' p = some .truncated := by
        rcases hsnd with h | h
        · rw [h]; exact hinv
        · exact Or.inr h
      have ih := retryLoop_fs env prompt i p rest (min (b * 2) 8) (some e)
        (sl ++ [b]) (n + 1) fs' hinv'
      simpa [retryLoop, hstep] using ih
    · have hsnd : fs' = setFile fs p .complete := by
        have := attemptStep_snd_ok env prompt a p fs v (by rw [hstep])
        rwa [hstep] at this
      constructor
      · intro _
        simp [retryLoop, hstep, hsnd, setFile]
      · intro h
        simp [retryLoop, hstep] at h

/-- Whether a worker trace ended in `DONE`. -/
def variantDone (t : VariantTrace) : Bool :=
  match t.outcome with
  | .done _ => true
  | .failed _ _ => false

theorem one_variant_outcome_shape (env : VariantEnv) (gd : Str) (i : Nat)
    (p : Str) (fs : FS) :
    (one_variant env gd i p fs).outcome = .done p ∨
      ∃ l', (one_variant env gd i p fs).outcome = .failed i l' :=
  retryLoop_outcome_shape env (build_prompt gd i) i p [1, 2, 3, 4] 1 none [] 0 fs

/-- The output path a variant worker is started on, inside one orchestrator
invocation. -/
def genPath (bhint : Option Str) (uuid_hex dir bs : Str) (i : Nat) : Str :=
  outPathName dir (runStem bhint uuid_hex) bs i

/-- The trace of variant worker `i` inside one orchestrator invocation. -/
def genTrace (env : OrchestraEnv) (gd : Str) (bhint : Option Str)
    (dir bs : Str) (fs : FS) (i : Nat) : VariantTrace :=
  one_variant (env.variantEnv i) gd i (genPath bhint env.uuid_hex dir bs i) fs

/-- The entry variant `i` contributes to the orchestrator's collected
list: its output path when it succeeded, nothing when it failed. -/
def succPathOf (env : OrchestraEnv) (gd : Str) (bhint : Option Str)
    (dir bs : Str) (fs : FS) (i : Nat) : Option Str :=
  match (genTrace env gd bhint dir bs fs i).outcome with
  | .done p => some p
  | .failed _ _ => none

theorem generate_eq (env : OrchestraEnv) (boxed base : Bytes) (gd : Str)
    (bhint ahint : Option Str) (dir : Str) (fs : FS) (bm bs : Str)
    (x : Str × Str)
    (hB : infer_mime_and_suffix_from_bytes env.pilOpen boxed bhint = .ok (bm, bs))
    (hA : infer_mime_and_suffix_from_bytes env.pilOpen base ahint = .ok x) :
    generate_four_edits_from_two_bytes env boxed base gd bhint ahint dir fs =
      ⟨if (env.completion.filterMap (succPathOf env gd bhint dir bs fs)).isEmpty
          then .error .allFailed
          else .ok (pySorted (env.completion.filterMap (succPathOf env gd bhint dir bs fs))),
        [genTrace env gd bhint dir bs fs 1, genTrace env gd bhint dir bs fs 2,
          genTrace env gd bhint dir bs fs 3, genTrace env gd bhint dir bs fs 4]⟩ := by
  unfold generate_four_edits_from_two_bytes
  rw [hB, hA]
  rfl

theorem succPathOf_eq (env : OrchestraEnv) (gd : Str) (bhint : Option Str)
    (dir bs : Str) (fs : FS) (i : Nat) :
    succPathOf env gd bhint dir bs fs i =
      if variantDone (genTrace env gd bhint dir bs fs i)
        then some (genPath bhint env.uuid_hex dir bs i) else none := by
  unfold succPathOf genTrace
  rcases one_variant_outcome_shape (env.variantEnv i) gd i
      (genPath bhint env.uuid_hex dir bs i) fs with h | ⟨l', h⟩ <;>
    simp [variantDone, genTrace, h]

theorem repr_digit_one : (Nat.repr 1).data = ['1'] := rfl

theorem repr_digit_two : (Nat.repr 2).data = ['2'] := rfl

theorem repr_digit_three : (Nat.repr 3).data = ['3'] := rfl

theorem repr_digit_four : (Nat.repr 4).data = ['4'] := rfl

theorem lexLt_common (dir stem suf : Str) (x y : Char) (h : x.toNat < y.toNat) :
    lexLt (dir ++ '/' :: stem ++ ('_' :: 'v' :: x :: suf))
      (dir ++ '/' :: stem ++ ('_' :: 'v' :: y :: suf)) = true := by
  have := lexLt_append_lt (dir ++ '/' :: stem ++ ['_', 'v']) suf suf h (x := x) (y := y)
  simpa [List.append_assoc] using this

/-- The four output paths of one run are strictly increasing in the variant
index: they share the prefix up to `_v` and differ at the single digit. -/
theorem outPathName_lt (dir stem suf : Str) :
    ∀ i j, 1 ≤ i → i < j → j ≤ 4 →
    lexLt (outPathName dir stem suf i) (outPathName dir stem suf j) = true := by
  intro i j h1 h2 h3
  have h4 : i ≤ 4 := by omega
  have h5 : 1 ≤ j := by omega
  interval_cases i <;> interval_cases j <;>
    simpa [outPathName, repr_digit_one, repr_digit_two, repr_digit_three,
      repr_digit_four, List.append_assoc] using
        lexLt_common dir stem suf _ _ (by decide)

theorem outPathName_le (dir stem suf : Str) {i j : Nat}
    (h1 : 1 ≤ i) (h2 : i ≤ j) (h3 : j ≤ 4) :
    pathLe (outPathName dir stem suf i) (outPathName dir stem suf j) := by
  rcases Nat.lt_or_ge i j with h | h
  · exact lexLt_asymm (outPathName_lt dir stem suf i j h1 h h3)
  · have : i = j := by omega
    subst this
    exact lexLt_irrefl _

theorem firstInline_decomp (ps₁ : List PartModel) (p : PartModel)
    (ps₂ : List PartModel) (blob : BlobModel)
    (h₁ : ∀ q ∈ ps₁, q.inline_data = none) (hp : p.inline_data = some blob) :
    firstInline (ps₁ ++ p :: ps₂) = some blob := by
  induction ps₁ with
  | nil => simp [firstInline, hp]
  | cons q qs ih =>
    have hq := h₁ q (List.mem_cons_self q qs)
    simp only [List.cons_append, firstInline, hq]
    exact ih fun r hr => h₁ r (List.mem_cons_of_mem q hr)

theorem firstInline_none (ps : List PartModel)
    (h : ∀ q ∈ ps, q.inline_data = none) : firstInline ps = none := by
  induction ps with
  | nil => rfl
  | cons q qs ih =>
    have hq := h q (List.mem_cons_self q qs)
    simp only [firstInline, hq]
    exact ih fun r hr => h r (List.mem_cons_of_mem q hr)

theorem firstFileRef_decomp (ps₁ : List PartModel) (p : PartModel)
    (ps₂ : List PartModel) (r : Str × Option Str)
    (h₁ : ∀ q ∈ ps₁, fileRefOf q = none) (hp : fileRefOf p = some r) :
    firstFileRef (ps₁ ++ p :: ps₂) = some r := by
  induction ps₁ with
  | nil => simp [firstFileRef, hp]
  | cons q qs ih =>
    have hq := h₁ q (List.mem_cons_self q qs)
    simp only [List.cons_append, firstFileRef, hq]
    exact ih fun s hs => h₁ s (List.mem_cons_of_mem q hs)

theorem firstFileRef_none (ps : List PartModel)
    (h : ∀ q ∈ ps, fileRefOf q = none) : firstFileRef ps = none := by
  induction ps with
  | nil => rfl
  | cons q qs ih =>
    have hq := h q (List.mem_cons_self q qs)
    simp only [firstFileRef, hq]
    exact ih fun s hs => h s (List.mem_cons_of_mem q hs)

theorem download_file_bytes_ok (client : FilesClient) (uri : Str)
    (h : client.accepts_name = true ∨ client.accepts_file = true) :
    (download_file_bytes client uri).1 = .ok (client.fetch uri) := by
  unfold download_file_bytes downloadLoop
  by_cases hn : client.accepts_name = true
  · simp [kwAccepted, hn]
  · have hf : client.accepts_file = true := by
      rcases h with h | h
      · exact absurd h hn
      · exact h
    simp [kwAccepted, hn, hf, downloadLoop]

theorem download_file_bytes_error (client : FilesClient) (uri : Str)
    (hn : client.accepts_name = false) (hf : client.accepts_file = false) :
    (download_file_bytes client uri).1 = .error () ∧
      (download_file_bytes client uri).2 = [("name").data, ("file").data] := by
  unfold download_file_bytes downloadLoop
  simp [kwAccepted, hn, hf, downloadLoop]

/-- C9: `build_prompt` is a pure total function that substitutes the
trimmed directive (the literal `NONE` when the trimmed directive is empty)
and the variant index into the fixed template: it depends on the directive
only through its trimmed form, an all-whitespace directive behaves like the
empty one, `build_prompt "" 3` contains `NONE` in the directive slot and
`3` as the variant marker, and `build_prompt "add snow" 1` contains
`add snow` verbatim in the directive slot and `1` as the marker. -/
theorem claim_C9_prompt_builder :
    (∀ (g₁ g₂ : Str) (i : Nat), pyStrip g₁ = pyStrip g₂ →
        build_prompt g₁ i = build_prompt g₂ i) ∧
    (∀ (g : Str) (i : Nat), pyStrip g = [] →
        build_prompt g i = build_prompt [] i) ∧
    occursIn (("VALUE: \"NONE\"").data) (build_prompt [] 3) = true ∧
    occursIn (("variant #3").data) (build_prompt [] 3) = true ∧
    occursIn (("VALUE: \"add snow\"").data) (build_prompt (("add snow").data) 1) = true ∧
    occursIn (("variant #1").data) (build_prompt (("add snow").data) 1) = true := by
  refine ⟨?_, ?_, by decide, by decide, by decide, by decide⟩
  · intro g₁ g₂ i h
    unfold build_prompt
    rw [h]
  · intro g i h
    unfold build_prompt
    rw [h]
    rfl

theorem claim_C9_prompt_builder_witness :
    (pyStrip ((" add snow ").data) = pyStrip (("add snow").data) ∧
      build_prompt ((" add snow ").data) 1 = build_prompt (("add snow").data) 1) ∧
    (pyStrip (("  ").data) = [] ∧
      build_prompt (("  ").data) 2 = build_prompt [] 2) :=
  ⟨⟨by decide, claim_C9_prompt_builder.1 _ _ 1 (by decide)⟩,
   ⟨by decide, claim_C9_prompt_builder.2.1 _ 2 (by decide)⟩⟩

/-- C7: the format prober resolves MIME/suffix hint-first, then intrinsic
format, then the `image/png` / `.png` defaults; valid PNG bytes with no
hint yield `(image/png, .png)`; a `.jpg` hint over intrinsic WEBP bytes
yields suffix `.jpg`; undecodable bytes raise a decode error, which the
orchestrator propagates to its caller before any variant work (no retry:
the returned trace list is empty). -/
theorem claim_C7_format_prober :
    (∀ (pil : Bytes → PILProbe) (b : Bytes) (h : Str) (fmt : Option Str) (m : Str),
        pil b = .ok fmt → guess_type h = some m → pyLower (pathSuffix h) ≠ [] →
        infer_mime_and_suffix_from_bytes pil b (some h) =
          .ok (m, pyLower (pathSuffix h))) ∧
    (∀ (pil : Bytes → PILProbe) (b : Bytes) (fmt : Str),
        pil b = .ok (some fmt) → pyUpper fmt = ("PNG").data →
        infer_mime_and_suffix_from_bytes pil b none =
          .ok ((("image/png").data), ((".png").data))) ∧
    (∀ (pil : Bytes → PILProbe) (b : Bytes) (h : Str) (fmt : Str),
        pil b = .ok (some fmt) → pyUpper fmt = ("WEBP").data →
        pyLower (pathSuffix h) = ((".jpg").data) →
        ∃ m, infer_mime_and_suffix_from_bytes pil b (some h) =
          .ok (m, ((".jpg").data))) ∧
    (∀ (pil : Bytes → PILProbe) (b : Bytes) (hint : Option Str),
        pil b = .failure →
        infer_mime_and_suffix_from_bytes pil b hint = .error ()) ∧
    (∀ (env : OrchestraEnv) (boxed base : Bytes) (gd : Str)
        (bhint ahint : Option Str) (dir : Str) (fs : FS),
        env.pilOpen boxed = .failure →
        generate_four_edits_from_two_bytes env boxed base gd bhint ahint dir fs =
          ⟨.error .imageDecode, []⟩) := by
  refine ⟨?_, ?_, ?_, ?_, ?_⟩
  · intro pil b h fmt m hp hm hs
    simp [infer_mime_and_suffix_from_bytes, hp, hm, List.isEmpty_iff, hs]
  · intro pil b fmt hp hu
    simp only [infer_mime_and_suffix_from_bytes, hp, Option.getD_some]
    rw [hu]
    rfl
  · intro pil b h fmt hp hu hs
    rcases hm : guess_type h with _ | m'
    · refine ⟨(tableGet FORMAT_TO_MIME (("WEBP").data)).getD (("image/png").data), ?_⟩
      simp [infer_mime_and_suffix_from_bytes, hp, hu, hs, hm, List.isEmpty_iff]
    · refine ⟨m', ?_⟩
      simp [infer_mime_and_suffix_from_bytes, hp, hu, hs, hm, List.isEmpty_iff]
  · intro pil b hint hp
    simp only [infer_mime_and_suffix_from_bytes, hp]
  · intro env boxed base gd bhint ahint dir fs hp
    have h1 : infer_mime_and_suffix_from_bytes env.pilOpen boxed bhint = .error () := by
      simp only [infer_mime_and_suffix_from_bytes, hp]
    unfold generate_four_edits_from_two_bytes
    rw [h1]

/-- A PIL oracle for the witness: `[0]` decodes as PNG, `[1]` as WEBP,
everything else is undecodable. -/
def pilFix : Bytes → PILProbe := fun b =>
  if b = [0] then .ok (some (("PNG").data))
  else if b = [1] then .ok (some (("WEBP").data))
  else .failure

theorem claim_C7_format_prober_witness :
    (pilFix [0] = .ok (some (("PNG").data)) ∧
      infer_mime_and_suffix_from_bytes pilFix [0] none =
        .ok ((("image/png").data), ((".png").data))) ∧
    (pyLower (pathSuffix (("photo.jpg").data)) = ((".jpg").data) ∧
      ∃ m, infer_mime_and_suffix_from_bytes pilFix [1] (some (("photo.jpg").data)) =
        .ok (m, ((".jpg").data))) ∧
    (pilFix [7] = .failure ∧
      infer_mime_and_suffix_from_bytes pilFix [7] none = .error ()) :=
  ⟨⟨by decide, claim_C7_format_prober.2.1 pilFix [0] (("PNG").data) (by decide) (by decide)⟩,
   ⟨by decide, claim_C7_format_prober.2.2.1 pilFix [1] (("photo.jpg").data) (("WEBP").data) (by decide) (by decide) (by decide)⟩,
   ⟨by decide, claim_C7_format_prober.2.2.2.1 pilFix [7] none (by decide)⟩⟩

/-- C4: the response decoder scans all parts for inline image data first and
returns the first such payload with its MIME type (no secondary fetch);
only when no part anywhere carries inline data does it scan again for a
remote-file reference, performing exactly one secondary fetch and returning
the fetched bytes; with neither present it returns the `(none, none)`
sentinel instead of raising. -/
theorem claim_C4_response_decoder :
    (∀ (resp : ResponseModel) (client : FilesClient) (ps₁ ps₂ : List PartModel)
        (p : PartModel) (blob : BlobModel),
        allParts resp = ps₁ ++ p :: ps₂ →
        (∀ q ∈ ps₁, q.inline_data = none) →
        p.inline_data = some blob →
        extract_image_from_response resp client =
          (.ok (blob.data, some (pyOrStr blob.mime_type (("image/png").data))), [])) ∧
    (∀ (resp : ResponseModel) (client : FilesClient) (ps₁ ps₂ : List PartModel)
        (p : PartModel) (uri : Str) (mt : Option Str),
        (∀ q ∈ allParts resp, q.inline_data = none) →
        allParts resp = ps₁ ++ p :: ps₂ →
        (∀ q ∈ ps₁, fileRefOf q = none) →
        fileRefOf p = some (uri, mt) →
        (client.accepts_name = true ∨ client.accepts_file = true) →
        extract_image_from_response resp client =
          (.ok (some (client.fetch uri), some (pyOrStr mt (("image/png").data))), [uri])) ∧
    (∀ (resp : ResponseModel) (client : FilesClient),
        (∀ q ∈ allParts resp, q.inline_data = none ∧ fileRefOf q = none) →
        extract_image_from_response resp client = (.ok (none, none), [])) := by
  refine ⟨?_, ?_, ?_⟩
  · intro resp client ps₁ ps₂ p blob hdec h₁ hp
    have hfi : firstInline (allParts resp) = some blob := by
      rw [hdec]; exact firstInline_decomp ps₁ p ps₂ blob h₁ hp
    unfold extract_image_from_response
    rw [hfi]
  · intro resp client ps₁ ps₂ p uri mt hno hdec h₁ hp hacc
    have hfi : firstInline (allParts resp) = none := firstInline_none _ hno
    have hfr : firstFileRef (allParts resp) = some (uri, mt) := by
      rw [hdec]; exact firstFileRef_decomp ps₁ p ps₂ (uri, mt) h₁ hp
    unfold extract_image_from_response
    rw [hfi, hfr]
    simp [download_file_bytes_ok client uri hacc]
  · intro resp client hq
    have hfi : firstInline (allParts resp) = none :=
      firstInline_none _ fun q hq' => (hq q hq').1
    have hfr : firstFileRef (allParts resp) = none :=
      firstFileRef_none _ fun q hq' => (hq q hq').2
    unfold extract_image_from_response
    rw [hfi, hfr]

/-- The single remote-file-reference part of `fileOnlyResp`. -/
def fileOnlyPart : PartModel :=
  { inline_data := none,
    file_data := some { file_uri := some (("files/abc").data), mime_type := none } }

/-- A response whose only part carries a remote-file reference. -/
def fileOnlyResp : ResponseModel :=
  { candidates := some [{ content := some { parts := some [fileOnlyPart] } }] }

/-- A client whose `files.download` accepts only the `file` keyword. -/
def fileKwClient : FilesClient :=
  { accepts_name := false, accepts_file := true, fetch := fun _ => [9, 9] }

theorem claim_C4_response_decoder_witness :
    ((∀ q ∈ allParts fileOnlyResp, q.inline_data = none) ∧
      fileRefOf fileOnlyPart = some ((("files/abc").data), none) ∧
      (fileKwClient.accepts_name = true ∨ fileKwClient.accepts_file = true)) ∧
    extract_image_from_response fileOnlyResp fileKwClient =
      (.ok (some [9, 9], some (("image/png").data)), [("files/abc").data]) :=
  ⟨⟨by decide, by decide, by decide⟩,
    claim_C4_response_decoder.2.1 fileOnlyResp fileKwClient [] []
      fileOnlyPart (("files/abc").data) none (by decide) (by decide) (by decide)
      (by decide) (by decide)⟩

theorem exceptNotOk {x : Except GenErr Bytes} (h : x.isOk = false) :
    ∃ e, x = .error e := by
  rcases x with e | v
  · exact ⟨e, rfl⟩
  · simp [Except.isOk, Except.toBool] at h

/-- A client that accepts neither `name` nor `file` for `files.download`. -/
def noKwClient : FilesClient :=
  { accepts_name := false, accepts_file := false, fetch := fun _ => [] }

/-- A variant environment whose every remote call returns a response with
only a remote-file reference, against `noKwClient`: every attempt dies with
the secondary-fetch configuration `TypeError`. -/
def cfgFailEnv : VariantEnv :=
  { call := fun _ _ => .ok fileOnlyResp, files := noKwClient, save := fun _ => .ok }

/-- C5, counterexample: when the secondary-fetch calling convention is
entirely unrecognized, the resulting configuration `TypeError` is NOT
surfaced immediately: already on attempt 1 the error is the configuration
fault, yet the worker retries through the whole 4-attempt backoff budget
(sleeping 1+2+4+8) before surfacing it inside the variant-failure error,
because the `except Exception` handler catches `TypeError` too. -/
theorem claim_C5_counterexample :
    attemptResult cfgFailEnv (build_prompt [] 1) 1 = .error .downloadSignature ∧
    (one_variant cfgFailEnv [] 1 (("out").data) (fun _ => none)).attempts = 4 ∧
    (one_variant cfgFailEnv [] 1 (("out").data) (fun _ => none)).sleeps = [1, 2, 4, 8] ∧
    (one_variant cfgFailEnv [] 1 (("out").data) (fun _ => none)).outcome =
      .failed 1 (some .downloadSignature) := by
  refine ⟨by decide, ?_, ?_, ?_⟩ <;> decide

/-- C5, amended: the secondary fetch tries the `name` and then the `file`
calling conventions and raises the configuration `TypeError` exactly when
neither is accepted, having tried both; but when that error occurs during a
variant attempt it is caught by the worker's broad exception handler like
any other failure and retried under the backoff loop, surfacing only after
the 4-attempt budget is exhausted, wrapped in the variant-failure error. -/
theorem claim_C5_amended :
    (∀ (client : FilesClient) (uri : Str),
        ((download_file_bytes client uri).1.isOk = false ↔
          (client.accepts_name = false ∧ client.accepts_file = false)) ∧
        ((download_file_bytes client uri).1.isOk = false →
          (download_file_bytes client uri).2 = [("name").data, ("file").data])) ∧
    (∀ (env : VariantEnv) (gd : Str) (i : Nat) (p : Str) (fs : FS),
        (∀ a ∈ [1, 2, 3, 4],
          attemptResult env (build_prompt gd i) a = .error .downloadSignature) →
        (one_variant env gd i p fs).outcome = .failed i (some .downloadSignature) ∧
        (one_variant env gd i p fs).attempts = 4 ∧
        (one_variant env gd i p fs).sleeps = [1, 2, 4, 8]) := by
  constructor
  · intro client uri
    rcases hn : client.accepts_name with _ | _ <;>
      rcases hf : client.accepts_file with _ | _ <;>
        simp [download_file_bytes, downloadLoop, kwAccepted, hn, hf,
          Except.isOk, Except.toBool]
  · intro env gd i p fs h
    have hf : ∀ a ∈ [1, 2, 3, 4],
        (attemptResult env (build_prompt gd i) a).isOk = false := by
      intro a ha
      rw [h a ha]; rfl
    have := retryLoop_all_fail env (build_prompt gd i) i p [1, 2, 3, 4] 1 none [] 0 fs hf
    refine ⟨?_, ?_, ?_⟩
    · have h4 := h 4 (by simp)
      simpa [one_variant, h4, errOf] using this.1
    · simpa [one_variant] using this.2.2
    · have : (retryLoop env (build_prompt gd i) i p [1, 2, 3, 4] 1 none [] 0 fs).sleeps =
          [] ++ backoffSeq 1 4 := this.2.1
      simpa [one_variant, backoffSeq] using this

theorem claim_C5_amended_witness :
    ((noKwClient.accepts_name = false ∧ noKwClient.accepts_file = false) ∧
      (download_file_bytes noKwClient (("u").data)).2 = [("name").data, ("file").data]) ∧
    ((∀ a ∈ [1, 2, 3, 4],
        attemptResult cfgFailEnv (build_prompt [] 2) a = .error .downloadSignature) ∧
      (one_variant cfgFailEnv [] 2 (("q").data) (fun _ => none)).outcome =
        .failed 2 (some .downloadSignature) ∧
      (one_variant cfgFailEnv [] 2 (("q").data) (fun _ => none)).attempts = 4 ∧
      (one_variant cfgFailEnv [] 2 (("q").data) (fun _ => none)).sleeps = [1, 2, 4, 8]) :=
  ⟨⟨by decide,
      ((claim_C5_amended.1 noKwClient (("u").data)).2
        ((claim_C5_amended.1 noKwClient (("u").data)).1.mpr (by decide)))⟩,
   ⟨by decide, claim_C5_amended.2 cfgFailEnv [] 2 (("q").data) (fun _ => none) (by decide)⟩⟩

/-- C3: the backoff delays of a variant worker start at 1, double after
each failed attempt and are capped at 8 — within the 4-attempt budget the
sleep trace is always an initial segment of `[1, 2, 4, 8]` — and a worker
whose attempts 1–3 fail and whose attempt 4 succeeds ends `DONE` with no
error, having slept exactly `[1, 2, 4]`, i.e. 1+2+4 = 7 time units, before
the successful attempt. -/
theorem claim_C3_backoff :
    (∀ (env : VariantEnv) (gd : Str) (i : Nat) (p : Str) (fs : FS),
        ∃ k ≤ 4, (one_variant env gd i p fs).sleeps = List.take k [1, 2, 4, 8]) ∧
    (∀ (env : VariantEnv) (gd : Str) (i : Nat) (p : Str) (fs : FS),
        (∀ a ∈ [1, 2, 3], (attemptResult env (build_prompt gd i) a).isOk = false) →
        (attemptResult env (build_prompt gd i) 4).isOk = true →
        (one_variant env gd i p fs).outcome = .done p ∧
        (one_variant env gd i p fs).sleeps = [1, 2, 4] ∧
        (one_variant env gd i p fs).sleeps.sum = 7 ∧
        (one_variant env gd i p fs).attempts = 4) := by
  constructor
  · intro env gd i p fs
    obtain ⟨k, hk, hsl⟩ := retryLoop_sleeps_shape env (build_prompt gd i) i p
      [1, 2, 3, 4] 1 none [] 0 fs
    refine ⟨k, by simpa using hk, ?_⟩
    rw [← backoffSeq_one_take k (by simpa using hk)]
    simpa [one_variant] using hsl
  · intro env gd i p fs hf h4
    obtain ⟨e1, he1⟩ := exceptNotOk (hf 1 (by simp))
    obtain ⟨e2, he2⟩ := exceptNotOk (hf 2 (by simp))
    obtain ⟨e3, he3⟩ := exceptNotOk (hf 3 (by simp))
    simp only [one_variant]
    rw [retryLoop_cons_error env _ i p 1 _ _ _ _ _ _ e1 he1]
    rw [retryLoop_cons_error env _ i p 2 _ _ _ _ _ _ e2 he2]
    rw [retryLoop_cons_error env _ i p 3 _ _ _ _ _ _ e3 he3]
    rw [retryLoop_cons_ok env _ i p 4 _ _ _ _ _ _ h4]
    refine ⟨rfl, by norm_num, by norm_num, by norm_num⟩

/-- One inline-image part holding the bytes `[7]`. -/
def inlinePart : PartModel :=
  { inline_data := some { data := some [7], mime_type := some (("image/png").data) },
    file_data := none }

/-- A response with one candidate holding `inlinePart`. -/
def inlineResp : ResponseModel :=
  { candidates := some [{ content := some { parts := some [inlinePart] } }] }

/-- A client accepting the `name` download keyword. -/
def nameKwClient : FilesClient :=
  { accepts_name := true, accepts_file := false, fetch := fun _ => [5] }

/-- An environment whose remote call fails on attempts 1–3 and produces an
inline image on attempt 4, with saves succeeding. -/
def flakyEnv : VariantEnv :=
  { call := fun a _ => if a ≤ 3 then .error (("boom").data) else .ok inlineResp,
    files := nameKwClient,
    save := fun _ => .ok }

theorem claim_C3_backoff_witness :
    ((∀ a ∈ [1, 2, 3],
        (attemptResult flakyEnv (build_prompt [] 1) a).isOk = false) ∧
      (attemptResult flakyEnv (build_prompt [] 1) 4).isOk = true) ∧
    ((one_variant flakyEnv [] 1 (("w").data) (fun _ => none)).outcome =
        .done (("w").data) ∧
      (one_variant flakyEnv [] 1 (("w").data) (fun _ => none)).sleeps = [1, 2, 4] ∧
      (one_variant flakyEnv [] 1 (("w").data) (fun _ => none)).sleeps.sum = 7 ∧
      (one_variant flakyEnv [] 1 (("w").data) (fun _ => none)).attempts = 4) :=
  ⟨⟨by decide, by decide⟩,
    claim_C3_backoff.2 flakyEnv [] 1 (("w").data) (fun _ => none)
      (by decide) (by decide)⟩

/-- C10: a variant whose 4 attempts all fail sleeps the backoff delay after
the 4th (final) failed attempt as well, accumulating the full trace
`[1, 2, 4, 8]` — exactly 1+2+4+8 = 15 time units of blocking delay —
before raising its exhaustion error. -/
theorem claim_C10_final_backoff_sleep :
    ∀ (env : VariantEnv) (gd : Str) (i : Nat) (p : Str) (fs : FS),
    (∀ a ∈ [1, 2, 3, 4], (attemptResult env (build_prompt gd i) a).isOk = false) →
    (one_variant env gd i p fs).sleeps = [1, 2, 4, 8] ∧
    (one_variant env gd i p fs).sleeps.sum = 15 ∧
    (∃ e, (one_variant env gd i p fs).outcome = .failed i (some e)) := by
  intro env gd i p fs hf
  have := retryLoop_all_fail env (build_prompt gd i) i p [1, 2, 3, 4] 1 none [] 0 fs hf
  obtain ⟨e4, he4⟩ := exceptNotOk (hf 4 (by simp))
  have hsl : (one_variant env gd i p fs).sleeps = [1, 2, 4, 8] := by
    have h := this.2.1
    simpa [one_variant, backoffSeq] using h
  refine ⟨hsl, by rw [hsl]; rfl, ⟨e4, ?_⟩⟩
  have h := this.1
  simpa [one_variant, he4, errOf] using h

/-- An environment whose remote call always raises. -/
def alwaysFailEnv : VariantEnv :=
  { call := fun _ _ => .error (("boom").data),
    files := nameKwClient,
    save := fun _ => .ok }

theorem claim_C10_final_backoff_sleep_witness :
    (∀ a ∈ [1, 2, 3, 4],
        (attemptResult alwaysFailEnv (build_prompt [] 3) a).isOk = false) ∧
    ((one_variant alwaysFailEnv [] 3 (("z").data) (fun _ => none)).sleeps = [1, 2, 4, 8] ∧
      (one_variant alwaysFailEnv [] 3 (("z").data) (fun _ => none)).sleeps.sum = 15 ∧
      (∃ e, (one_variant alwaysFailEnv [] 3 (("z").data) (fun _ => none)).outcome =
        .failed 3 (some e))) :=
  ⟨by decide,
    claim_C10_final_backoff_sleep alwaysFailEnv [] 3 (("z").data) (fun _ => none)
      (by decide)⟩

/-- An environment whose remote call always yields an inline image but
whose every PIL save aborts in the middle of writing the destination
file. -/
def midWriteEnv : VariantEnv :=
  { call := fun _ _ => .ok inlineResp,
    files := nameKwClient,
    save := fun _ => .failMidWrite (("disk full").data) }

/-- C8, counterexample: the worker saves with
`Image.open(BytesIO(img_bytes)).save(out_path)`, writing straight to the
final path with no write-to-temp-then-rename; a save that aborts mid-write
on attempt 1 is followed by a retry (4 attempts run in total), and the run
ends with truncated residue sitting at the final output path. -/
theorem claim_C8_counterexample :
    (one_variant midWriteEnv [] 1 (("o").data) (fun _ => none)).attempts = 4 ∧
    variantDone (one_variant midWriteEnv [] 1 (("o").data) (fun _ => none)) = false ∧
    (one_variant midWriteEnv [] 1 (("o").data) (fun _ => none)).fs (("o").data) =
      some .truncated := by
  refine ⟨?_, ?_, ?_⟩ <;> decide

/-- C8, amended: per run each variant's final output path holds at most one
file, and a complete file appears there exactly when the variant succeeded;
but a failed attempt whose save aborts mid-write can leave a truncated
(partial) file at the final path — the code writes directly to the final
path — which is at most overwritten by a later successful attempt.  A
variant that never succeeds leaves either nothing or truncated residue,
never a complete file. -/
theorem claim_C8_amended (env : VariantEnv) (gd : Str) (i : Nat) (p : Str)
    (fs : FS) (h : fs p = none) :
    ((one_variant env gd i p fs).outcome = .done p ↔
      (one_variant env gd i p fs).fs p = some .complete) ∧
    ((one_variant env gd i p fs).outcome ≠ .done p →
      ((one_variant env gd i p fs).fs p = none ∨
        (one_variant env gd i p fs).fs p = some .truncated)) := by
  have hrl := retryLoop_fs env (build_prompt gd i) i p [1, 2, 3, 4] 1 none [] 0 fs
    (Or.inl h)
  have h1 : (one_variant env gd i p fs).outcome = .done p →
      (one_variant env gd i p fs).fs p = some .complete := by
    intro hd
    exact hrl.1 (by simpa [one_variant] using hd)
  have h2 : (one_variant env gd i p fs).outcome ≠ .done p →
      ((one_variant env gd i p fs).fs p = none ∨
        (one_variant env gd i p fs).fs p = some .truncated) := by
    intro hnd
    have := hrl.2 (by simpa [one_variant] using hnd)
    simpa [one_variant] using this
  refine ⟨⟨h1, ?_⟩, h2⟩
  intro hc
  by_contra hnd
  rcases h2 hnd with hh | hh <;> rw [hh] at hc <;> simp at hc

theorem claim_C8_amended_witness :
    ((fun _ => none : FS) (("w2").data) = none ∧
      ((one_variant flakyEnv [] 1 (("w2").data) (fun _ => none)).outcome =
          .done (("w2").data) ↔
        (one_variant flakyEnv [] 1 (("w2").data) (fun _ => none)).fs (("w2").data) =
          some .complete)) :=
  ⟨rfl, (claim_C8_amended flakyEnv [] 1 (("w2").data) (fun _ => none) rfl).1⟩

theorem mem1234_bounds {i : Nat} (h : i ∈ [1, 2, 3, 4]) : 1 ≤ i ∧ i ≤ 4 := by
  simp at h
  rcases h with rfl | rfl | rfl | rfl <;> omega

theorem length_filterMap_guard {α β : Type} (c : α → Bool) (g : α → β) :
    ∀ L : List α,
    (L.filterMap fun i => if c i then some (g i) else none).length = L.countP c
  | [] => rfl
  | a :: as => by
    by_cases h : c a = true <;>
      simp [List.filterMap_cons, List.countP_cons, h, length_filterMap_guard c g as]

theorem genPath_inj (bhint : Option Str) (uuid dir bs : Str) {i j : Nat}
    (hi1 : 1 ≤ i) (hi4 : i ≤ 4) (hj1 : 1 ≤ j) (hj4 : j ≤ 4)
    (h : genPath bhint uuid dir bs i = genPath bhint uuid dir bs j) : i = j := by
  by_contra hne
  rcases Nat.lt_or_ge i j with hlt | hge
  · have hlex := outPathName_lt dir (runStem bhint uuid) bs i j hi1 hlt hj4
    unfold genPath at h
    rw [h, lexLt_irrefl] at hlex
    cases hlex
  · have hlt : j < i := by omega
    have hlex := outPathName_lt dir (runStem bhint uuid) bs j i hj1 hlt hi4
    unfold genPath at h
    rw [h, lexLt_irrefl] at hlex
    cases hlex

/-- C1: for valid inputs (both probes decode) and any completion order of
the four workers, `generate` raises `All variants failed.` exactly when no
variant succeeded; and a returned list is a permutation of the successful
variants' output paths — one entry per successful variant, none for a
failed one — with length the number of successes, at most 4. -/
theorem claim_C1_generate_partial_failure (env : OrchestraEnv)
    (boxed base : Bytes) (gd : Str) (bhint ahint : Option Str) (dir : Str)
    (fs : FS) (bm bs : Str) (x : Str × Str)
    (hB : infer_mime_and_suffix_from_bytes env.pilOpen boxed bhint = .ok (bm, bs))
    (hA : infer_mime_and_suffix_from_bytes env.pilOpen base ahint = .ok x)
    (hperm : env.completion.Perm [1, 2, 3, 4]) :
    ((generate_four_edits_from_two_bytes env boxed base gd bhint ahint dir fs).result =
        .error .allFailed ↔
      ∀ i ∈ [1, 2, 3, 4], variantDone (genTrace env gd bhint dir bs fs i) = false) ∧
    (∀ l,
      (generate_four_edits_from_two_bytes env boxed base gd bhint ahint dir fs).result =
        .ok l →
      l.Perm ([1, 2, 3, 4].filterMap (succPathOf env gd bhint dir bs fs)) ∧
      l.length =
        List.countP (fun i => variantDone (genTrace env gd bhint dir bs fs i)) [1, 2, 3, 4] ∧
      l.length ≤ 4 ∧
      (∀ i ∈ [1, 2, 3, 4],
        (variantDone (genTrace env gd bhint dir bs fs i) = true ↔
          genPath bhint env.uuid_hex dir bs i ∈ l))) := by
  have hres : (generate_four_edits_from_two_bytes env boxed base gd bhint ahint dir fs).result =
      (if (env.completion.filterMap (succPathOf env gd bhint dir bs fs)).isEmpty
        then .error .allFailed
        else .ok (pySorted (env.completion.filterMap (succPathOf env gd bhint dir bs fs)))) := by
    rw [generate_eq env boxed base gd bhint ahint dir fs bm bs x hB hA]
  have hpermF : (env.completion.filterMap (succPathOf env gd bhint dir bs fs)).Perm
      ([1, 2, 3, 4].filterMap (succPathOf env gd bhint dir bs fs)) :=
    hperm.filterMap _
  have hiff : (env.completion.filterMap (succPathOf env gd bhint dir bs fs)).isEmpty = true ↔
      ∀ i ∈ [1, 2, 3, 4], variantDone (genTrace env gd bhint dir bs fs i) = false := by
    rw [List.isEmpty_iff]
    constructor
    · intro h0 i hi
      have hcan : [1, 2, 3, 4].filterMap (succPathOf env gd bhint dir bs fs) = [] := by
        have := hpermF
        rw [h0] at this
        exact this.nil_eq.symm
      have hni := List.filterMap_eq_nil_iff.mp hcan i hi
      rw [succPathOf_eq] at hni
      by_cases hd : variantDone (genTrace env gd bhint dir bs fs i) = true
      · rw [hd] at hni
        simp at hni
      · simpa using hd
    · intro hall
      have hcan : [1, 2, 3, 4].filterMap (succPathOf env gd bhint dir bs fs) = [] := by
        rw [List.filterMap_eq_nil_iff]
        intro i hi
        rw [succPathOf_eq, hall i hi]
        rfl
      have := hpermF
      rw [hcan] at this
      exact this.eq_nil
  constructor
  · rw [hres]
    by_cases he : (env.completion.filterMap (succPathOf env gd bhint dir bs fs)).isEmpty = true
    · simp only [he, if_true]
      simp [hiff.mp he]
    · rw [if_neg he]
      constructor
      · intro hc
        cases hc
      · intro hall
        exact absurd (hiff.mpr hall) he
  · intro l hl
    rw [hres] at hl
    by_cases he : (env.completion.filterMap (succPathOf env gd bhint dir bs fs)).isEmpty = true
    · rw [if_pos he] at hl
      cases hl
    · rw [if_neg he] at hl
      have hlp : l = pySorted (env.completion.filterMap (succPathOf env gd bhint dir bs fs)) :=
        (Except.ok.inj hl).symm
      subst hlp
      have hPerm : (pySorted (env.completion.filterMap (succPathOf env gd bhint dir bs fs))).Perm
          ([1, 2, 3, 4].filterMap (succPathOf env gd bhint dir bs fs)) :=
        (List.perm_insertionSort pathLe _).trans hpermF
      refine ⟨hPerm, ?_, ?_, ?_⟩
      · rw [hPerm.length_eq,
          List.filterMap_congr fun i _ => succPathOf_eq env gd bhint dir bs fs i,
          length_filterMap_guard]
      · rw [hPerm.length_eq,
          List.filterMap_congr fun i _ => succPathOf_eq env gd bhint dir bs fs i,
          length_filterMap_guard]
        exact List.countP_le_length _
      · intro i hi
        constructor
        · intro hd
          have hsome : succPathOf env gd bhint dir bs fs i =
              some (genPath bhint env.uuid_hex dir bs i) := by
            rw [succPathOf_eq, hd]
            rfl
          exact hPerm.mem_iff.mpr (List.mem_filterMap.mpr ⟨i, hi, hsome⟩)
        · intro hmem
          obtain ⟨j, hj, hfj⟩ := List.mem_filterMap.mp (hPerm.mem_iff.mp hmem)
          rw [succPathOf_eq] at hfj
          by_cases hd : variantDone (genTrace env gd bhint dir bs fs j) = true
          · rw [hd, if_pos rfl] at hfj
            have hpe := Option.some.inj hfj
            obtain ⟨hi1, hi4⟩ := mem1234_bounds hi
            obtain ⟨hj1, hj4⟩ := mem1234_bounds hj
            have : j = i := genPath_inj bhint env.uuid_hex dir bs hj1 hj4 hi1 hi4 hpe
            subst this
            exact hd
          · rw [Bool.not_eq_true] at hd
            rw [hd] at hfj
            simp at hfj

/-- An environment whose remote call immediately yields an inline image and
whose saves succeed. -/
def okVariantEnv : VariantEnv :=
  { call := fun _ _ => .ok inlineResp, files := nameKwClient, save := fun _ => .ok }

/-- A full orchestrator environment: PNG-decoding probe, fixed uuid
fragment, all four workers succeeding, completion order 3, 1, 4, 2. -/
def okOrchEnv : OrchestraEnv :=
  { pilOpen := pilFix,
    uuid_hex := ("abc12345").data,
    variantEnv := fun _ => okVariantEnv,
    completion := [3, 1, 4, 2] }

theorem claim_C1_generate_partial_failure_witness :
    (infer_mime_and_suffix_from_bytes okOrchEnv.pilOpen [0] none =
        .ok ((("image/png").data), ((".png").data)) ∧
      okOrchEnv.completion.Perm [1, 2, 3, 4]) ∧
    (((generate_four_edits_from_two_bytes okOrchEnv [0] [0] [] none none
          (("out").data) (fun _ => none)).result = .error .allFailed ↔
      ∀ i ∈ [1, 2, 3, 4],
        variantDone (genTrace okOrchEnv [] none (("out").data) ((".png").data)
          (fun _ => none) i) = false) ∧
    (∀ l,
      (generate_four_edits_from_two_bytes okOrchEnv [0] [0] [] none none
          (("out").data) (fun _ => none)).result = .ok l →
      l.Perm ([1, 2, 3, 4].filterMap
        (succPathOf okOrchEnv [] none (("out").data) ((".png").data) (fun _ => none))) ∧
      l.length =
        List.countP (fun i => variantDone (genTrace okOrchEnv [] none (("out").data)
          ((".png").data) (fun _ => none) i)) [1, 2, 3, 4] ∧
      l.length ≤ 4 ∧
      (∀ i ∈ [1, 2, 3, 4],
        (variantDone (genTrace okOrchEnv [] none (("out").data) ((".png").data)
            (fun _ => none) i) = true ↔
          genPath none okOrchEnv.uuid_hex (("out").data) ((".png").data) i ∈ l)))) :=
  ⟨⟨by decide, by decide⟩,
    claim_C1_generate_partial_failure okOrchEnv [0] [0] [] none none
      (("out").data) (fun _ => none) (("image/png").data) ((".png").data)
      ((("image/png").data), ((".png").data)) (by decide) (by decide) (by decide)⟩

/-- The collation of the four variants in index order is sorted in the
lexicographic path order: the output paths are strictly increasing in the
variant index. -/
theorem canonical_sorted (env : OrchestraEnv) (gd : Str) (bhint : Option Str)
    (dir bs : Str) (fs : FS) :
    List.Sorted pathLe ([1, 2, 3, 4].filterMap (succPathOf env gd bhint dir bs fs)) := by
  have hP : List.Pairwise (fun a b => a < b ∧ 1 ≤ a ∧ b ≤ 4) [1, 2, 3, 4] := by decide
  refine List.Pairwise.filterMap (succPathOf env gd bhint dir bs fs) ?_ hP
  intro a b hab x hx y hy
  obtain ⟨hlt, ha1, hb4⟩ := hab
  rw [succPathOf_eq] at hx hy
  by_cases hda : variantDone (genTrace env gd bhint dir bs fs a) = true
  · by_cases hdb : variantDone (genTrace env gd bhint dir bs fs b) = true
    · rw [hda, if_pos rfl] at hx
      rw [hdb, if_pos rfl] at hy
      have hx' : x = genPath bhint env.uuid_hex dir bs a := by
        have := hx
        simp at this
        exact this.symm
      have hy' : y = genPath bhint env.uuid_hex dir bs b := by
        have := hy
        simp at this
        exact this.symm
      rw [hx', hy']
      exact outPathName_le dir (runStem bhint env.uuid_hex) bs ha1 (by omega) hb4
    · rw [Bool.not_eq_true] at hdb
      rw [hdb] at hy
      simp at hy
  · rw [Bool.not_eq_true] at hda
    rw [hda] at hx
    simp at hx

/-- C6: a returned non-empty list is the successful variants' output paths
in ascending variant-index order — which coincides with the lexicographic
order on final paths, since the paths share the run stem and differ only in
the digit of the `v1..v4` component — so it is sorted and independent of
the order in which the workers completed. -/
theorem claim_C6_deterministic_order (env : OrchestraEnv)
    (boxed base : Bytes) (gd : Str) (bhint ahint : Option Str) (dir : Str)
    (fs : FS) (bm bs : Str) (x : Str × Str)
    (hB : infer_mime_and_suffix_from_bytes env.pilOpen boxed bhint = .ok (bm, bs))
    (hA : infer_mime_and_suffix_from_bytes env.pilOpen base ahint = .ok x)
    (hperm : env.completion.Perm [1, 2, 3, 4]) :
    (∀ l,
      (generate_four_edits_from_two_bytes env boxed base gd bhint ahint dir fs).result =
        .ok l →
      l = [1, 2, 3, 4].filterMap (succPathOf env gd bhint dir bs fs) ∧
      List.Sorted pathLe l) ∧
    (∀ c₁ c₂ : List Nat, c₁.Perm [1, 2, 3, 4] → c₂.Perm [1, 2, 3, 4] →
      (generate_four_edits_from_two_bytes { env with completion := c₁ }
          boxed base gd bhint ahint dir fs).result =
        (generate_four_edits_from_two_bytes { env with completion := c₂ }
          boxed base gd bhint ahint dir fs).result) := by
  constructor
  · intro l hl
    have hres : (generate_four_edits_from_two_bytes env boxed base gd bhint ahint dir fs).result =
        (if (env.completion.filterMap (succPathOf env gd bhint dir bs fs)).isEmpty
          then .error .allFailed
          else .ok (pySorted (env.completion.filterMap (succPathOf env gd bhint dir bs fs)))) := by
      rw [generate_eq env boxed base gd bhint ahint dir fs bm bs x hB hA]
    rw [hres] at hl
    by_cases he : (env.completion.filterMap (succPathOf env gd bhint dir bs fs)).isEmpty = true
    · rw [if_pos he] at hl
      cases hl
    · rw [if_neg he] at hl
      have hlp : l = pySorted (env.completion.filterMap (succPathOf env gd bhint dir bs fs)) :=
        (Except.ok.inj hl).symm
      subst hlp
      have hPerm : (pySorted (env.completion.filterMap (succPathOf env gd bhint dir bs fs))).Perm
          ([1, 2, 3, 4].filterMap (succPathOf env gd bhint dir bs fs)) :=
        (List.perm_insertionSort pathLe _).trans (hperm.filterMap _)
      have hsorted : List.Sorted pathLe
          (pySorted (env.completion.filterMap (succPathOf env gd bhint dir bs fs))) :=
        List.sorted_insertionSort pathLe _
      exact ⟨List.eq_of_perm_of_sorted hPerm hsorted
        (canonical_sorted env gd bhint dir bs fs), hsorted⟩
  · intro c₁ c₂ hc₁ hc₂
    have hB₁ : infer_mime_and_suffix_from_bytes
        ({ env with completion := c₁ } : OrchestraEnv).pilOpen boxed bhint = .ok (bm, bs) := hB
    have hA₁ : infer_mime_and_suffix_from_bytes
        ({ env with completion := c₁ } : OrchestraEnv).pilOpen base ahint = .ok x := hA
    have hB₂ : infer_mime_and_suffix_from_bytes
        ({ env with completion := c₂ } : OrchestraEnv).pilOpen boxed bhint = .ok (bm, bs) := hB
    have hA₂ : infer_mime_and_suffix_from_bytes
        ({ env with completion := c₂ } : OrchestraEnv).pilOpen base ahint = .ok x := hA
    rw [generate_eq { env with completion := c₁ } boxed base gd bhint ahint dir fs bm bs x hB₁ hA₁,
        generate_eq { env with completion := c₂ } boxed base gd bhint ahint dir fs bm bs x hB₂ hA₂]
    have hf₁ : succPathOf { env with completion := c₁ } gd bhint dir bs fs =
        succPathOf env gd bhint dir bs fs := rfl
    have hf₂ : succPathOf { env with completion := c₂ } gd bhint dir bs fs =
        succPathOf env gd bhint dir bs fs := rfl
    simp only [hf₁, hf₂]
    have hpp : (c₁.filterMap (succPathOf env gd bhint dir bs fs)).Perm
        (c₂.filterMap (succPathOf env gd bhint dir bs fs)) :=
      (hc₁.trans hc₂.symm).filterMap _
    by_cases he : (c₁.filterMap (succPathOf env gd bhint dir bs fs)).isEmpty = true
    · have he₂ : (c₂.filterMap (succPathOf env gd bhint dir bs fs)).isEmpty = true := by
        rw [List.isEmpty_iff] at he ⊢
        rw [he] at hpp
        exact hpp.nil_eq.symm
      rw [if_pos he, if_pos he₂]
    · have he₂ : ¬ (c₂.filterMap (succPathOf env gd bhint dir bs fs)).isEmpty = true := by
        intro hcon
        apply he
        rw [List.isEmpty_iff] at hcon ⊢
        rw [hcon] at hpp
        exact hpp.eq_nil
      rw [if_neg he, if_neg he₂]
      congr 1
      exact List.eq_of_perm_of_sorted
        ((List.perm_insertionSort pathLe _).trans
          (hpp.trans (List.perm_insertionSort pathLe _).symm))
        (List.sorted_insertionSort pathLe _) (List.sorted_insertionSort pathLe _)

theorem claim_C6_deterministic_order_witness :
    (okOrchEnv.completion.Perm [1, 2, 3, 4] ∧
      ([4, 3, 2, 1] : List Nat).Perm [1, 2, 3, 4]) ∧
    ((∀ l,
      (generate_four_edits_from_two_bytes okOrchEnv [0] [0] [] none none
          (("out").data) (fun _ => none)).result = .ok l →
      l = [1, 2, 3, 4].filterMap
        (succPathOf okOrchEnv [] none (("out").data) ((".png").data) (fun _ => none)) ∧
      List.Sorted pathLe l) ∧
    (generate_four_edits_from_two_bytes { okOrchEnv with completion := [4, 3, 2, 1] }
        [0] [0] [] none none (("out").data) (fun _ => none)).result =
      (generate_four_edits_from_two_bytes { okOrchEnv with completion := [1, 2, 3, 4] }
        [0] [0] [] none none (("out").data) (fun _ => none)).result) :=
  ⟨⟨by decide, by decide⟩,
    ⟨(claim_C6_deterministic_order okOrchEnv [0] [0] [] none none
        (("out").data) (fun _ => none) (("image/png").data) ((".png").data)
        ((("image/png").data), ((".png").data)) (by decide) (by decide) (by decide)).1,
      (claim_C6_deterministic_order okOrchEnv [0] [0] [] none none
        (("out").data) (fun _ => none) (("image/png").data) ((".png").data)
        ((("image/png").data), ((".png").data)) (by decide) (by decide) (by decide)).2
        [4, 3, 2, 1] [1, 2, 3, 4] (by decide) (by decide)⟩⟩

/-- C2: a variant worker whose 4 attempts all fail raises the descriptive
variant-failure error carrying its variant index and the error of its last
(4th) attempt, executes exactly 4 attempts (no 5th), and does not disturb
its siblings: when exactly one of the four variants always fails and the
other three succeed, `generate` returns exactly 3 outputs. -/
theorem claim_C2_worker_exhaustion_isolation (env : OrchestraEnv)
    (boxed base : Bytes) (gd : Str) (bhint ahint : Option Str) (dir : Str)
    (fs : FS) (bm bs : Str) (x : Str × Str)
    (hB : infer_mime_and_suffix_from_bytes env.pilOpen boxed bhint = .ok (bm, bs))
    (hA : infer_mime_and_suffix_from_bytes env.pilOpen base ahint = .ok x)
    (hperm : env.completion.Perm [1, 2, 3, 4])
    (k : Nat) (hk : k ∈ [1, 2, 3, 4])
    (hfail : ∀ a ∈ [1, 2, 3, 4],
        (attemptResult (env.variantEnv k) (build_prompt gd k) a).isOk = false)
    (hsucc : ∀ j ∈ [1, 2, 3, 4], j ≠ k →
        (attemptResult (env.variantEnv j) (build_prompt gd j) 1).isOk = true) :
    (∃ e, (genTrace env gd bhint dir bs fs k).outcome = .failed k (some e) ∧
        attemptResult (env.variantEnv k) (build_prompt gd k) 4 = .error e) ∧
    (genTrace env gd bhint dir bs fs k).attempts = 4 ∧
    (∃ l,
      (generate_four_edits_from_two_bytes env boxed base gd bhint ahint dir fs).result =
        .ok l ∧ l.length = 3) := by
  obtain ⟨e4, he4⟩ := exceptNotOk (hfail 4 (by simp))
  have hall := retryLoop_all_fail (env.variantEnv k) (build_prompt gd k) k
    (genPath bhint env.uuid_hex dir bs k) [1, 2, 3, 4] 1 none [] 0 fs hfail
  have hko : (genTrace env gd bhint dir bs fs k).outcome = .failed k (some e4) := by
    have h := hall.1
    simpa [genTrace, one_variant, he4, errOf] using h
  have hka : (genTrace env gd bhint dir bs fs k).attempts = 4 := by
    have h := hall.2.2
    simpa [genTrace, one_variant] using h
  have hdone : ∀ j ∈ [1, 2, 3, 4], j ≠ k →
      (genTrace env gd bhint dir bs fs j).outcome =
        .done (genPath bhint env.uuid_hex dir bs j) := by
    intro j hj hjk
    have hcons := retryLoop_cons_ok (env.variantEnv j) (build_prompt gd j) j
      (genPath bhint env.uuid_hex dir bs j) 1 [2, 3, 4] 1 none [] 0 fs
      (hsucc j hj hjk)
    simp [genTrace, one_variant, hcons]
  have hspk : succPathOf env gd bhint dir bs fs k = none := by
    unfold succPathOf
    rw [hko]
  have hsp : ∀ j ∈ [1, 2, 3, 4], j ≠ k →
      succPathOf env gd bhint dir bs fs j =
        some (genPath bhint env.uuid_hex dir bs j) := by
    intro j hj hjk
    unfold succPathOf
    rw [hdone j hj hjk]
  have hlen : ([1, 2, 3, 4].filterMap (succPathOf env gd bhint dir bs fs)).length = 3 := by
    have hk' : k = 1 ∨ k = 2 ∨ k = 3 ∨ k = 4 := by simpa using hk
    rcases hk' with rfl | rfl | rfl | rfl
    · simp [List.filterMap_cons, hspk, hsp 2 (by simp) (by omega),
        hsp 3 (by simp) (by omega), hsp 4 (by simp) (by omega)]
    · simp [List.filterMap_cons, hspk, hsp 1 (by simp) (by omega),
        hsp 3 (by simp) (by omega), hsp 4 (by simp) (by omega)]
    · simp [List.filterMap_cons, hspk, hsp 1 (by simp) (by omega),
        hsp 2 (by simp) (by omega), hsp 4 (by simp) (by omega)]
    · simp [List.filterMap_cons, hspk, hsp 1 (by simp) (by omega),
        hsp 2 (by simp) (by omega), hsp 3 (by simp) (by omega)]
  have hpermF := hperm.filterMap (succPathOf env gd bhint dir bs fs)
  have hlenc : (env.completion.filterMap (succPathOf env gd bhint dir bs fs)).length = 3 := by
    rw [hpermF.length_eq, hlen]
  have hne : (env.completion.filterMap (succPathOf env gd bhint dir bs fs)).isEmpty = false := by
    rcases hcs : env.completion.filterMap (succPathOf env gd bhint dir bs fs) with _ | ⟨a, as⟩
    · rw [hcs] at hlenc
      simp at hlenc
    · rfl
  have hres : (generate_four_edits_from_two_bytes env boxed base gd bhint ahint dir fs).result =
      .ok (pySorted (env.completion.filterMap (succPathOf env gd bhint dir bs fs))) := by
    rw [generate_eq env boxed base gd bhint ahint dir fs bm bs x hB hA]
    simp [hne]
  refine ⟨⟨e4, hko, he4⟩, hka,
    ⟨pySorted (env.completion.filterMap (succPathOf env gd bhint dir bs fs)), hres, ?_⟩⟩
  unfold pySorted
  rw [(List.perm_insertionSort pathLe _).length_eq]
  exact hlenc

/-- An orchestrator environment where variant 2's remote call always fails
and the other three variants succeed on their first attempt. -/
def mixedOrchEnv : OrchestraEnv :=
  { pilOpen := pilFix,
    uuid_hex := ("abc12345").data,
    variantEnv := fun i => if i = 2 then alwaysFailEnv else okVariantEnv,
    completion := [3, 1, 4, 2] }

theorem claim_C2_worker_exhaustion_isolation_witness :
    ((∀ a ∈ [1, 2, 3, 4],
        (attemptResult (mixedOrchEnv.variantEnv 2) (build_prompt [] 2) a).isOk = false) ∧
      (∀ j ∈ [1, 2, 3, 4], j ≠ 2 →
        (attemptResult (mixedOrchEnv.variantEnv j) (build_prompt [] j) 1).isOk = true)) ∧
    ((∃ e,
        (genTrace mixedOrchEnv [] none (("out").data) ((".png").data)
          (fun _ => none) 2).outcome = .failed 2 (some e) ∧
        attemptResult (mixedOrchEnv.variantEnv 2) (build_prompt [] 2) 4 = .error e) ∧
      (genTrace mixedOrchEnv [] none (("out").data) ((".png").data)
        (fun _ => none) 2).attempts = 4 ∧
      (∃ l,
        (generate_four_edits_from_two_bytes mixedOrchEnv [0] [0] [] none none
          (("out").data) (fun _ => none)).result = .ok l ∧ l.length = 3)) :=
  ⟨⟨by decide, by decide⟩,
    claim_C2_worker_exhaustion_isolation mixedOrchEnv [0] [0] [] none none
      (("out").data) (fun _ => none) (("image/png").data) ((".png").data)
      ((("image/png").data), ((".png").data)) (by decide) (by decide) (by decide)
      2 (by decide) (by decide) (by decide)⟩
